import Mathlib

/-!
Verification of the lcd1602-driver crate's protocol/state engine.

The Lean definitions below are a shallow embedding of the Rust sources:

* `src/src/utils.rs`      — `BitOps` (`set_bit` / `clear_bit` on `u8`);
* `src/src/command.rs`    — the `CommandSet` logical instructions and the
  `From<CommandSet> for Command` wire encoder;
* `src/src/state.rs`      — `LcdState`, its setters with their `assert!`
  precondition checks, `shift_cursor_or_display` and
  `calculate_pos_by_offset`;
* `src/src/lcd.rs`        — the `Lcd` driver façade (`write_u8_to_cur`,
  `read_u8_from_cur`, `write_char_to_cur`, `write_graph_to_cgram`,
  `toggle_display`, `full_display_blink`, `split_flap_write`'s start-byte
  computation, `shift_display_to_pos`, …);
* `src/src/impl_lcd_api.rs` — the older revision of `write_u8_to_cur`
  (its cursor-wrap update), kept for comparison.

Modelling conventions:

* `u8` values (bytes, columns, rows, addresses) are `Nat`; an `as u8`
  cast of a possibly-negative `i8` is `u8cast` (two's-complement wrap);
  `i8` intermediates are `Int` (for the inputs exercised here the sums
  stay inside the `i8` range, so no extra wrap is needed).
* A Rust `panic!` / failed `assert!` / `.unwrap()` on `None` is `Option`:
  a function that can panic returns `none` in exactly those cases.
* The `Sender` is abstracted as the list of `CommandSet` values handed to
  `wait_and_send`, in order (busy-flag polling and timing live below this
  interface and carry no data); a read's response byte is passed in as an
  explicit oracle argument.
-/

namespace Lcd1602

/-- Embeds `utils.rs` `BitOps::set_bit` for `u8`: `*self |= 1u8 << pos`
(the source asserts `pos <= 7`; all call sites use `pos ≤ 4`). -/
def setBit (b pos : Nat) : Nat := b ||| (1 <<< pos)

/-- Embeds `utils.rs` `BitOps::clear_bit` for `u8`: `*self &= !(1u8 << pos)`;
for `pos ≤ 7` the `u8` complement of `1 << pos` is `255 ^^^ (1 <<< pos)`. -/
def clearBit (b pos : Nat) : Nat := b &&& (255 ^^^ (1 <<< pos))

/-- A Rust `as u8` cast from a (possibly negative) integer value:
two's-complement wrap into `0..=255`. -/
def u8cast (i : Int) : Nat := (i.emod 256).toNat

/-- Embeds `command.rs` `MoveDirection` (default `LeftToRight`). -/
inductive MoveDirection
  | RightToLeft
  | LeftToRight
deriving DecidableEq, Repr

/-- Embeds `command.rs` `ShiftType` (default `CursorOnly`). -/
inductive ShiftType
  | CursorOnly
  | CursorAndDisplay
deriving DecidableEq, Repr

/-- Embeds `command.rs` `State` (default `On`). -/
inductive State
  | Off
  | On
deriving DecidableEq, Repr

/-- Embeds `command.rs` `DataWidth` (default `Bit4`). -/
inductive DataWidth
  | Bit4
  | Bit8
deriving DecidableEq, Repr

/-- Embeds `command.rs` `LineMode` (default `TwoLine`). -/
inductive LineMode
  | OneLine
  | TwoLine
deriving DecidableEq, Repr

/-- Embeds `command.rs` `Font` (default `Font5x8`). -/
inductive Font
  | Font5x8
  | Font5x11
deriving DecidableEq, Repr

/-- Embeds `command.rs` `RAMType` (default `DDRam`). -/
inductive RAMType
  | DDRam
  | CGRam
deriving DecidableEq, Repr

/-- Embeds `command.rs` `CommandSet`: the logical instruction set. -/
inductive CommandSet
  | ClearDisplay
  | ReturnHome
  | EntryModeSet (dir : MoveDirection) (st : ShiftType)
  | DisplayOnOff (display : State) (cursor : State) (cursorBlink : State)
  | CursorOrDisplayShift (st : ShiftType) (dir : MoveDirection)
  | HalfFunctionSet
  | FunctionSet (width : DataWidth) (line : LineMode) (font : Font)
  | SetCGRAM (addr : Nat)
  | SetDDRAM (addr : Nat)
  | ReadBusyFlagAndAddress
  | WriteDataToRAM (data : Nat)
  | ReadDataFromRAM
deriving DecidableEq, Repr

/-- Embeds `command.rs` `RegisterSelection`. -/
inductive RegisterSelection
  | Command
  | Data
deriving DecidableEq, Repr

/-- Embeds `command.rs` `ReadWriteOp`. -/
inductive ReadWriteOp
  | Write
  | Read
deriving DecidableEq, Repr

/-- Embeds `command.rs` `Bits`: a 4-bit or 8-bit payload. -/
inductive Bits
  | Bit4 (data : Nat)
  | Bit8 (data : Nat)
deriving DecidableEq, Repr

/-- Embeds `command.rs` `Command`: the wire-level triple. -/
structure Command where
  rs : RegisterSelection
  rw : ReadWriteOp
  data : Option Bits
deriving DecidableEq, Repr

/-- Embeds `command.rs` `Command::new`, which panics when a write command
carries no data. -/
def Command.new (rs : RegisterSelection) (rw : ReadWriteOp) (data : Option Bits) :
    Option Command :=
  if rw = ReadWriteOp.Write ∧ data = none then none else some ⟨rs, rw, data⟩

/-- Embeds `command.rs` `impl From<CommandSet> for Command` (the command
encoder). The `assert!` range checks on `SetCGRAM` / `SetDDRAM` addresses
are modelled as `none`. -/
def commandFromCommandSet : CommandSet → Option Command
  | CommandSet.ClearDisplay =>
      Command.new RegisterSelection.Command ReadWriteOp.Write (some (Bits.Bit8 0b00000001))
  | CommandSet.ReturnHome =>
      Command.new RegisterSelection.Command ReadWriteOp.Write (some (Bits.Bit8 0b00000010))
  | CommandSet.EntryModeSet dir st =>
      let rawBits : Nat := 0b00000100
      let rawBits : Nat :=
        match dir with
        | MoveDirection.RightToLeft => clearBit rawBits 1
        | MoveDirection.LeftToRight => setBit rawBits 1
      let rawBits : Nat :=
        match st with
        | ShiftType.CursorOnly => clearBit rawBits 0
        | ShiftType.CursorAndDisplay => setBit rawBits 0
      Command.new RegisterSelection.Command ReadWriteOp.Write (some (Bits.Bit8 rawBits))
  | CommandSet.DisplayOnOff display cursor cursorBlink =>
      let rawBits : Nat := 0b00001000
      let rawBits : Nat :=
        match display with
        | State.Off => clearBit rawBits 2
        | State.On => setBit rawBits 2
      let rawBits : Nat :=
        match cursor with
        | State.Off => clearBit rawBits 1
        | State.On => setBit rawBits 1
      let rawBits : Nat :=
        match cursorBlink with
        | State.Off => clearBit rawBits 0
        | State.On => setBit rawBits 0
      Command.new RegisterSelection.Command ReadWriteOp.Write (some (Bits.Bit8 rawBits))
  | CommandSet.CursorOrDisplayShift st dir =>
      let rawBits : Nat := 0b00010000
      let rawBits : Nat :=
        match st with
        | ShiftType.CursorOnly => clearBit rawBits 3
        | ShiftType.CursorAndDisplay => setBit rawBits 3
      let rawBits : Nat :=
        match dir with
        | MoveDirection.RightToLeft => clearBit rawBits 2
        | MoveDirection.LeftToRight => setBit rawBits 2
      Command.new RegisterSelection.Command ReadWriteOp.Write (some (Bits.Bit8 rawBits))
  | CommandSet.HalfFunctionSet =>
      Command.new RegisterSelection.Command ReadWriteOp.Write (some (Bits.Bit4 0b0010))
  | CommandSet.FunctionSet width line font =>
      let rawBits : Nat := 0b00100000
      let rawBits : Nat :=
        match width with
        | DataWidth.Bit4 => clearBit rawBits 4
        | DataWidth.Bit8 => setBit rawBits 4
      let rawBits : Nat :=
        match line with
        | LineMode.OneLine => clearBit rawBits 3
        | LineMode.TwoLine => setBit rawBits 3
      let rawBits : Nat :=
        match font with
        | Font.Font5x8 => clearBit rawBits 2
        | Font.Font5x11 => setBit rawBits 2
      Command.new RegisterSelection.Command ReadWriteOp.Write (some (Bits.Bit8 rawBits))
  | CommandSet.SetCGRAM addr =>
      if addr < 2 ^ 6 then
        Command.new RegisterSelection.Command ReadWriteOp.Write (some (Bits.Bit8 (0b01000000 + addr)))
      else none
  | CommandSet.SetDDRAM addr =>
      if addr < 2 ^ 7 then
        Command.new RegisterSelection.Command ReadWriteOp.Write (some (Bits.Bit8 (0b10000000 + addr)))
      else none
  | CommandSet.ReadBusyFlagAndAddress =>
      Command.new RegisterSelection.Command ReadWriteOp.Read none
  | CommandSet.WriteDataToRAM data =>
      Command.new RegisterSelection.Data ReadWriteOp.Write (some (Bits.Bit8 data))
  | CommandSet.ReadDataFromRAM =>
      Command.new RegisterSelection.Data ReadWriteOp.Read none

/-- Embeds `state.rs` `LcdState`: the software mirror of the controller
state. Cursor position is `(column, row)`. -/
structure LcdState where
  dataWidth : DataWidth
  line : LineMode
  font : Font
  displayOn : State
  cursorOn : State
  cursorBlink : State
  direction : MoveDirection
  shiftType : ShiftType
  cursorPos : Nat × Nat
  displayOffset : Nat
  ramType : RAMType
  backlight : State
deriving DecidableEq, Repr

/-- Embeds `state.rs` `LcdState::get_line_capacity`: 80 columns in
one-line mode, 40 per line in two-line mode. -/
def LcdState.getLineCapacity (s : LcdState) : Nat :=
  match s.line with
  | LineMode.OneLine => 80
  | LineMode.TwoLine => 40

/-- Embeds `state.rs` `LcdState::set_line_mode`. The source asserts
`(self.get_font() == Font::Font5x11) && (line == LineMode::OneLine)`
(message: "font is 5x11, line cannot be 2"); the call panics (`none`)
whenever that conjunction is false. -/
def LcdState.setLineMode (s : LcdState) (line : LineMode) : Option LcdState :=
  if s.font = Font.Font5x11 ∧ line = LineMode.OneLine then
    some { s with line := line }
  else none

/-- Embeds `state.rs` `LcdState::set_font`. The source asserts
`(self.get_line_mode() == LineMode::TwoLine) && (font == Font::Font5x8)`
(message: "there is 2 line, font cannot be 5x11"); the call panics
(`none`) whenever that conjunction is false. -/
def LcdState.setFont (s : LcdState) (font : Font) : Option LcdState :=
  if s.line = LineMode.TwoLine ∧ font = Font.Font5x8 then
    some { s with font := font }
  else none

/-- Embeds `state.rs` `LcdState::get_cursor_pos`, which asserts that the
current RAM type is DDRAM. -/
def LcdState.getCursorPos (s : LcdState) : Option (Nat × Nat) :=
  if s.ramType = RAMType.DDRam then some s.cursorPos else none

/-- Embeds `state.rs` `LcdState::set_cursor_pos` with its per-line-mode
bounds asserts. -/
def LcdState.setCursorPos (s : LcdState) (pos : Nat × Nat) : Option LcdState :=
  match s.line with
  | LineMode.OneLine =>
      if pos.1 < s.getLineCapacity ∧ pos.2 < 1 then some { s with cursorPos := pos } else none
  | LineMode.TwoLine =>
      if pos.1 < s.getLineCapacity ∧ pos.2 < 2 then some { s with cursorPos := pos } else none

/-- Embeds `state.rs` `LcdState::set_display_offset`, which panics when
the offset reaches the line capacity. -/
def LcdState.setDisplayOffset (s : LcdState) (offset : Nat) : Option LcdState :=
  if offset ≥ s.getLineCapacity then none else some { s with displayOffset := offset }

/-- Embeds `state.rs` `LcdState::set_ram_type`. -/
def LcdState.setRamType (s : LcdState) (ramType : RAMType) : LcdState :=
  { s with ramType := ramType }

/-- Embeds `state.rs` `LcdState::shift_cursor_or_display`. It reads the
cursor position up front via `get_cursor_pos` (asserting DDRAM) and then
moves either the software cursor or the window offset one step with
wraparound. -/
def LcdState.shiftCursorOrDisplay (s : LcdState) (st : ShiftType) (dir : MoveDirection) :
    Option LcdState := do
  let curDisplayOffset := s.displayOffset
  let curCursorPos ← s.getCursorPos
  let lineCapacity := s.getLineCapacity
  match st with
  | ShiftType.CursorOnly =>
    match dir with
    | MoveDirection.LeftToRight =>
      match s.line with
      | LineMode.OneLine =>
          if curCursorPos.1 = lineCapacity - 1 then s.setCursorPos (0, 0)
          else s.setCursorPos (curCursorPos.1 + 1, 0)
      | LineMode.TwoLine =>
          if curCursorPos.1 = lineCapacity - 1 then
            if curCursorPos.2 = 0 then s.setCursorPos (0, 1) else s.setCursorPos (0, 0)
          else s.setCursorPos (curCursorPos.1 + 1, curCursorPos.2)
    | MoveDirection.RightToLeft =>
      match s.line with
      | LineMode.OneLine =>
          if curCursorPos.1 = 0 then s.setCursorPos (lineCapacity - 1, 0)
          else s.setCursorPos (curCursorPos.1 - 1, 0)
      | LineMode.TwoLine =>
          if curCursorPos.1 = 0 then
            if curCursorPos.2 = 0 then s.setCursorPos (lineCapacity - 1, 1)
            else s.setCursorPos (lineCapacity - 1, 0)
          else s.setCursorPos (curCursorPos.1 - 1, curCursorPos.2)
  | ShiftType.CursorAndDisplay =>
    match dir with
    | MoveDirection.LeftToRight =>
        if curDisplayOffset = lineCapacity - 1 then s.setDisplayOffset 0
        else s.setDisplayOffset (curDisplayOffset + 1)
    | MoveDirection.RightToLeft =>
        if curDisplayOffset = 0 then s.setDisplayOffset (lineCapacity - 1)
        else s.setDisplayOffset (curDisplayOffset - 1)

/-- Embeds `state.rs` `LcdState::calculate_pos_by_offset`. Precondition
asserts are `none`; the `i8` sums are exact integers (they stay inside
the `i8` range for in-bounds two-line arguments) and the final `as u8`
casts wrap via `u8cast`. Note the two-line branch adjusts an
out-of-range column by `± 2` (the row count), not by the line capacity. -/
def LcdState.calculatePosByOffset (s : LcdState) (originalPos : Nat × Nat)
    (offset : Int × Int) : Option (Nat × Nat) :=
  let lineCapacity := s.getLineCapacity
  match s.line with
  | LineMode.OneLine =>
      if offset.1.natAbs < lineCapacity ∧ offset.2 = 0 then
        let rawXPos : Int := (originalPos.1 : Int) + offset.1
        if rawXPos < 0 then some (u8cast (rawXPos + (lineCapacity : Int)), 0)
        else if rawXPos > (lineCapacity : Int) then
          some (u8cast (rawXPos - (lineCapacity : Int)), 0)
        else some (u8cast rawXPos, 0)
      else none
  | LineMode.TwoLine =>
      if offset.1.natAbs < lineCapacity ∧ offset.2.natAbs < 2 then
        let rawXPos0 : Int := (originalPos.1 : Int) + offset.1
        let adjusted : Int × Int :=
          if rawXPos0 < 0 then (rawXPos0 + 2, -1)
          else if rawXPos0 > (lineCapacity : Int) then (rawXPos0 - 2, 1)
          else (rawXPos0, 0)
        let rawXPos := adjusted.1
        let xOverflow := adjusted.2
        let rawYPos0 : Int := (originalPos.2 : Int) + offset.2 + xOverflow
        let rawYPos : Int :=
          if rawYPos0 < 0 then rawYPos0 + 2
          else if rawYPos0 > 2 then rawYPos0 - 2
          else rawYPos0
        some (u8cast rawXPos, u8cast rawYPos)
      else none

/-- Embeds `lcd.rs` `Lcd`: the driver façade. The sender and delayer are
abstracted away; operations additionally return the list of `CommandSet`
values handed to `Sender::wait_and_send`, in order. -/
structure Lcd where
  state : LcdState
  pollIntervalUs : Nat
deriving DecidableEq, Repr

/-- Embeds `lcd.rs` `Lcd::read_u8_from_cur`: sends `ReadDataFromRAM` and
returns the response byte (`resp` is the byte the hardware answers with).
No field of the driver state is touched. -/
def Lcd.readU8FromCur (lcd : Lcd) (resp : Nat) : Lcd × List CommandSet × Nat :=
  (lcd, [CommandSet.ReadDataFromRAM], resp)

/-- Embeds `lcd.rs` `Lcd::set_cursor_pos`: switches the state to DDRAM,
stores the checked position, and sends `SetDDRAM(y * 0x40 + x)`. -/
def Lcd.setCursorPos (lcd : Lcd) (pos : Nat × Nat) : Option (Lcd × List CommandSet) := do
  let st1 := lcd.state.setRamType RAMType.DDRam
  let st2 ← st1.setCursorPos pos
  let rawPos : Nat := pos.2 * 0x40 + pos.1
  let _ ← commandFromCommandSet (CommandSet.SetDDRAM rawPos)
  some ({ lcd with state := st2 }, [CommandSet.SetDDRAM rawPos])

/-- Embeds `lcd.rs` `Lcd::write_u8_to_cur`: asserts DDRAM, sends
`WriteDataToRAM`, then mimics the controller's auto-stepped address
counter by computing the wrapped next position and storing it through
`set_cursor_pos` (which also sends the matching `SetDDRAM`). -/
def Lcd.writeU8ToCur (lcd : Lcd) (byte : Nat) : Option (Lcd × List CommandSet) := do
  if lcd.state.ramType = RAMType.DDRam then
    let _ ← commandFromCommandSet (CommandSet.WriteDataToRAM byte)
    let lastPos ← lcd.state.getCursorPos
    let lineCapacity := lcd.state.getLineCapacity
    let rawPos : Nat × Nat :=
      match lcd.state.direction with
      | MoveDirection.RightToLeft =>
        match lcd.state.line with
        | LineMode.OneLine =>
            if lastPos.1 = 0 then (lineCapacity - 1, 0) else (lastPos.1 - 1, 0)
        | LineMode.TwoLine =>
            if lastPos.1 = 0 then
              if lastPos.2 = 1 then (lineCapacity - 1, 0) else (lineCapacity - 1, 1)
            else (lastPos.1 - 1, lastPos.2)
      | MoveDirection.LeftToRight =>
        match lcd.state.line with
        | LineMode.OneLine =>
            if lastPos.1 = lineCapacity - 1 then (0, 0) else (lastPos.1 + 1, 0)
        | LineMode.TwoLine =>
            if lastPos.1 = lineCapacity - 1 then
              if lastPos.2 = 0 then (0, 1) else (0, 0)
            else (lastPos.1 + 1, lastPos.2)
    let (lcd2, tr2) ← lcd.setCursorPos rawPos
    some (lcd2, CommandSet.WriteDataToRAM byte :: tr2)
  else none

/-- Embeds the cursor-update half of the older revision
`impl_lcd_api.rs` `write_u8_to_cur` (lines 50–94): given line mode,
direction, the current position and the line capacity, the position it
passes to `internal_set_cursor_pos`. -/
def legacyWriteU8NextPos (line : LineMode) (dir : MoveDirection) (lastPos : Nat × Nat)
    (lineCapacity : Nat) : Nat × Nat :=
  match dir with
  | MoveDirection.RightToLeft =>
    match line with
    | LineMode.OneLine =>
        if lastPos.1 = 0 then (lineCapacity - 1, 0) else (lastPos.1 - 1, 0)
    | LineMode.TwoLine =>
        if lastPos.1 = 0 then
          if lastPos.2 = 1 then (lineCapacity - 1, 0) else (lineCapacity - 1, 1)
        else (lastPos.1 - 1, lastPos.2)
  | MoveDirection.LeftToRight =>
    match line with
    | LineMode.OneLine =>
        if lastPos.1 = lineCapacity - 1 then (0, 0) else (lastPos.1 + 1, 0)
    | LineMode.TwoLine =>
        if lastPos.1 = lineCapacity - 1 then
          if lastPos.2 = 0 then (1, 0) else (0, 0)
        else (lastPos.1 + 1, lastPos.2)

/-- Embeds `lcd.rs` `Lcd::set_direction`: stores the direction and sends
the matching `EntryModeSet`. -/
def Lcd.setDirection (lcd : Lcd) (dir : MoveDirection) : Lcd × List CommandSet :=
  let st := { lcd.state with direction := dir }
  ({ lcd with state := st }, [CommandSet.EntryModeSet dir st.shiftType])

/-- Embeds `lcd.rs` `Lcd::set_cgram_addr` with its `addr < 2^6` assert:
switches the state to CGRAM and sends `SetCGRAM`. -/
def Lcd.setCgramAddr (lcd : Lcd) (addr : Nat) : Option (Lcd × List CommandSet) :=
  if addr < 2 ^ 6 then
    some ({ lcd with state := lcd.state.setRamType RAMType.CGRam }, [CommandSet.SetCGRAM addr])
  else none

/-- Embeds `lcd.rs` `Lcd::write_graph_to_cgram`: asserts the index and
the 5-bit rows, temporarily forces left-to-right addressing when the
configured direction is right-to-left, positions CGRAM at `index << 3`,
bursts the 8 rows top-to-bottom, and restores the direction. -/
def Lcd.writeGraphToCgram (lcd : Lcd) (index : Nat) (graphData : List Nat) :
    Option (Lcd × List CommandSet) := do
  if index < 8 then
    if graphData.all (fun line => line < 2 ^ 5) then
      let flip :=
        if lcd.state.direction = MoveDirection.RightToLeft then
          let (l, t) := lcd.setDirection MoveDirection.LeftToRight
          (l, t, true)
        else (lcd, [], false)
      let lcd1 := flip.1
      let tr1 := flip.2.1
      let directionFliped := flip.2.2
      let cgramDataAddrStart := index <<< 3
      let (lcd2, tr2) ← lcd1.setCgramAddr cgramDataAddrStart
      let tr3 := graphData.map CommandSet.WriteDataToRAM
      let final :=
        if directionFliped then lcd2.setDirection MoveDirection.RightToLeft
        else (lcd2, [])
      some (final.1, tr1 ++ tr2 ++ tr3 ++ final.2)
    else none
  else none

/-- Embeds `lcd.rs` `Lcd::write_char_to_cur`'s character mapping: a
character inside printable ASCII `0x20..=0x7D` passes through as its
byte, everything else becomes the solid block `0xFF`. `c` is the
character's scalar value; `is_ascii` is `c < 0x80` and `char as u8`
truncates to the low byte. -/
def writeCharOutByte (c : Nat) : Nat :=
  if c < 0x80 then
    if 0x20 ≤ c % 256 ∧ c % 256 ≤ 0x7D then c % 256 else 0xFF
  else 0xFF

/-- Embeds `lcd.rs` `Lcd::write_char_to_cur`: asserts DDRAM, maps the
character through the printable-ASCII filter, and writes the byte at the
cursor. -/
def Lcd.writeCharToCur (lcd : Lcd) (c : Char) : Option (Lcd × List CommandSet) :=
  if lcd.state.ramType = RAMType.DDRam then
    lcd.writeU8ToCur (writeCharOutByte c.toNat)
  else none

/-- Embeds `lcd.rs` `Lcd::read_byte_from_pos`: saves the cursor,
repositions, reads one byte, restores the saved cursor. -/
def Lcd.readByteFromPos (lcd : Lcd) (pos : Nat × Nat) (resp : Nat) :
    Option (Lcd × List CommandSet × Nat) := do
  let originalPos ← lcd.state.getCursorPos
  let (lcd1, tr1) ← lcd.setCursorPos pos
  let readRes := lcd1.readU8FromCur resp
  let (lcd3, tr3) ← readRes.1.setCursorPos originalPos
  some (lcd3, tr1 ++ readRes.2.1 ++ tr3, readRes.2.2)

/-- Embeds `lcd.rs` `Lcd::set_display_state`: stores the flag and sends
`DisplayOnOff` with the three current flags. -/
def Lcd.setDisplayState (lcd : Lcd) (display : State) : Lcd × List CommandSet :=
  let st := { lcd.state with displayOn := display }
  ({ lcd with state := st },
    [CommandSet.DisplayOnOff st.displayOn st.cursorOn st.cursorBlink])

/-- Embeds `lcd.rs` `Lcd::toggle_display`: flips the display on/off flag
through `set_display_state`. -/
def Lcd.toggleDisplay (lcd : Lcd) : Lcd × List CommandSet :=
  match lcd.state.displayOn with
  | State.Off => lcd.setDisplayState State.On
  | State.On => lcd.setDisplayState State.Off

/-- The `(0..count*2).for_each` loop body of `lcd.rs`
`Lcd::full_display_blink`: `n` further toggles, collecting the sent
commands (the per-toggle delay carries no data). -/
def Lcd.blinkLoop (lcd : Lcd) : Nat → Lcd × List CommandSet
  | 0 => (lcd, [])
  | n + 1 =>
      let t := lcd.toggleDisplay
      let rest := t.1.blinkLoop n
      (rest.1, t.2 ++ rest.2)

/-- Embeds `lcd.rs` `Lcd::full_display_blink`. With `count = 0` the
source loops forever (modelled as divergence, `none`); otherwise it
toggles the display `count * 2` times. -/
def Lcd.fullDisplayBlink (lcd : Lcd) (count : Nat) : Option (Lcd × List CommandSet) :=
  if count = 0 then none
  else some (lcd.blinkLoop (count * 2))

/-- Embeds `lcd.rs` `Lcd::shift_cursor_or_display`: applies the state
update and sends `CursorOrDisplayShift`. -/
def Lcd.shiftCursorOrDisplay (lcd : Lcd) (st : ShiftType) (dir : MoveDirection) :
    Option (Lcd × List CommandSet) := do
  let st2 ← lcd.state.shiftCursorOrDisplay st dir
  some ({ lcd with state := st2 }, [CommandSet.CursorOrDisplayShift st dir])

/-- Embeds `lcd.rs` `MoveStyle`. -/
inductive MoveStyle
  | ForceMoveLeft
  | ForceMoveRight
  | NoCrossBoundary
  | Shortest
deriving DecidableEq, Repr

/-- Embeds `lcd.rs` `FlipStyle`. -/
inductive FlipStyle
  | Sequential
  | Simultaneous
deriving DecidableEq, Repr

/-- Embeds the `(distance, direction)` computation of `lcd.rs`
`Lcd::shift_display_to_pos` (the `match ms` block, lines 628–681). -/
def computeDistanceDirection (lineCapacity beforePos targetPos : Nat) (ms : MoveStyle) :
    Nat × MoveDirection :=
  match ms with
  | MoveStyle.ForceMoveLeft =>
      if targetPos < beforePos then (beforePos - targetPos, MoveDirection.RightToLeft)
      else (lineCapacity - (targetPos - beforePos), MoveDirection.RightToLeft)
  | MoveStyle.ForceMoveRight =>
      if targetPos > beforePos then (targetPos - beforePos, MoveDirection.LeftToRight)
      else (lineCapacity - (beforePos - targetPos), MoveDirection.LeftToRight)
  | MoveStyle.NoCrossBoundary =>
      if targetPos > beforePos then (targetPos - beforePos, MoveDirection.LeftToRight)
      else (beforePos - targetPos, MoveDirection.RightToLeft)
  | MoveStyle.Shortest =>
      if targetPos > beforePos then
        if targetPos - beforePos ≤ lineCapacity / 2 then
          (targetPos - beforePos, MoveDirection.LeftToRight)
        else (lineCapacity - (targetPos - beforePos), MoveDirection.RightToLeft)
      else
        if beforePos - targetPos ≤ lineCapacity / 2 then
          (beforePos - targetPos, MoveDirection.RightToLeft)
        else (lineCapacity - (beforePos - targetPos), MoveDirection.LeftToRight)

/-- The `(0..distance).for_each` loop of `lcd.rs`
`Lcd::shift_display_to_pos`: `n` single-step `CursorAndDisplay` shifts
in direction `dir`. -/
def Lcd.shiftSteps (lcd : Lcd) (dir : MoveDirection) : Nat → Option (Lcd × List CommandSet)
  | 0 => some (lcd, [])
  | n + 1 => do
      let (l1, tr1) ← lcd.shiftCursorOrDisplay ShiftType.CursorAndDisplay dir
      let (l2, tr2) ← l1.shiftSteps dir n
      some (l2, tr1 ++ tr2)

/-- Embeds `lcd.rs` `Lcd::shift_display_to_pos`: no-op when already at
the target, otherwise overrides the display state, performs `distance`
single-step shifts chosen by the move style, then restores the previous
display state. -/
def Lcd.shiftDisplayToPos (lcd : Lcd) (targetPos : Nat) (ms : MoveStyle)
    (displayStateWhenShift : State) : Option (Lcd × List CommandSet) :=
  let beforePos := lcd.state.displayOffset
  if beforePos = targetPos then some (lcd, [])
  else do
    let lineCapacity := lcd.state.getLineCapacity
    let beforeState := lcd.state.displayOn
    let (lcd1, tr1) := lcd.setDisplayState displayStateWhenShift
    let dd := computeDistanceDirection lineCapacity beforePos targetPos ms
    let (lcd2, tr2) ← lcd1.shiftSteps dd.2 dd.1
    let (lcd3, tr3) := lcd2.setDisplayState beforeState
    some (lcd3, tr1 ++ tr2 ++ tr3)

/-- A `u8` subtraction `a - b` as Rust (with overflow checks) evaluates
it: a panic (`none`) when it underflows. -/
def checkedSubU8 (a b : Nat) : Option Nat :=
  if b ≤ a then some (a - b) else none

/-- Embeds the `flap_start_byte` computation of `lcd.rs`
`Lcd::split_flap_write`, `FlipStyle::Sequential` arm (lines 519–528):
`cur_byte - max_flip_cnt` is computed before the clamp-to-`0x20`
comparison, so it underflows when `max_flip_cnt > cur_byte`. -/
def flapStartByteSeq (maxFlipCnt : Option Nat) (curByte : Nat) : Option Nat :=
  match maxFlipCnt with
  | none => some 0x20
  | some m =>
      (checkedSubU8 curByte m).map (fun v => if v < 0x20 then 0x20 else v)

/-- The per-character `flap_start_byte` computations performed, in
order, by the `Sequential` arm of `split_flap_write` over the string's
bytes; the first underflow panics the whole call (`none`). -/
def seqFlapStarts (maxFlipCnt : Option Nat) : List Nat → Option (List Nat)
  | [] => some []
  | b :: rest => do
      let s ← flapStartByteSeq maxFlipCnt b
      let others ← seqFlapStarts maxFlipCnt rest
      some (s :: others)

/-- Embeds the `flap_start_byte` computation of `lcd.rs`
`Lcd::split_flap_write`, `FlipStyle::Simultaneous` arm (lines 542–557):
`str.chars().min()/max().unwrap()` (panic on an empty string), then
`max_char_byte - max_flip_cnt` before the clamp comparison, underflowing
when `max_flip_cnt > max_char_byte`. `max - min` never underflows. -/
def flapStartByteSim (maxFlipCnt : Option Nat) (bytes : List Nat) : Option Nat := do
  let minCharByte ← bytes.min?
  let maxCharByte ← bytes.max?
  match maxFlipCnt with
  | none => some 0x20
  | some m =>
      if maxCharByte - minCharByte > m then some minCharByte
      else (checkedSubU8 maxCharByte m).map (fun v => if v < 0x20 then 0x20 else v)

/-- The start-byte computation stage of `lcd.rs` `Lcd::split_flap_write`:
the entry `assert!` that every character is printable ASCII
`0x20..=0x7D`, followed by the per-style `flap_start_byte` values the
flip loops iterate from. -/
def splitFlapStartBytes (bytes : List Nat) (fs : FlipStyle) (maxFlipCnt : Option Nat) :
    Option (List Nat) :=
  if bytes.all (fun b => 0x20 ≤ b ∧ b ≤ 0x7D) then
    match fs with
    | FlipStyle.Sequential => seqFlapStarts maxFlipCnt bytes
    | FlipStyle.Simultaneous => (flapStartByteSim maxFlipCnt bytes).map (fun b => [b])
  else none

/-! Concrete driver states used by the closed theorems below. `baseState`
is the `Default` state of `state.rs` (`Bit4`, two-line, 5x8 font,
everything `On`, direction left-to-right, cursor `(0, 0)`, DDRAM). -/

/-- The `Default` `LcdState` of `state.rs`. -/
def baseState : LcdState :=
  { dataWidth := DataWidth.Bit4, line := LineMode.TwoLine, font := Font.Font5x8,
    displayOn := State.On, cursorOn := State.On, cursorBlink := State.On,
    direction := MoveDirection.LeftToRight, shiftType := ShiftType.CursorOnly,
    cursorPos := (0, 0), displayOffset := 0, ramType := RAMType.DDRam,
    backlight := State.On }

/-- A driver in the default state. -/
def baseLcd : Lcd := { state := baseState, pollIntervalUs := 10 }

/-- A two-line driver with the given cursor position and direction. -/
def lcdAt (pos : Nat × Nat) (dir : MoveDirection) : Lcd :=
  { state := { baseState with cursorPos := pos, direction := dir }, pollIntervalUs := 10 }

/-- C6: the command encoder is pure and matches the controller
instruction set: `EntryModeSet(LeftToRight, CursorAndDisplay)` encodes to
the write-to-command-register byte `0b0000_0111`, and
`FunctionSet(Bit4, TwoLine, Font5x8)` encodes to `0b0010_1000`. -/
theorem entryModeSet_functionSet_encoding :
    commandFromCommandSet
        (CommandSet.EntryModeSet MoveDirection.LeftToRight ShiftType.CursorAndDisplay) =
      some ⟨RegisterSelection.Command, ReadWriteOp.Write, some (Bits.Bit8 0b00000111)⟩ ∧
    commandFromCommandSet
        (CommandSet.FunctionSet DataWidth.Bit4 LineMode.TwoLine Font.Font5x8) =
      some ⟨RegisterSelection.Command, ReadWriteOp.Write, some (Bits.Bit8 0b00101000)⟩ := by
  constructor <;> decide

/-- C2: the two fatal rejections the claim lists do hold (`set_font
Font5x11` under two-line mode panics, and `set_line_mode TwoLine` under
font 5x11 panics), but the claimed success case is also a panic: with
`line_mode = OneLine`, `set_font Font5x11` returns `none` instead of
recording the font — the `assert!` conditions in `state.rs` are
inverted. -/
theorem set_font_set_line_mode_asserts_inverted :
    baseState.setFont Font.Font5x11 = none ∧
    ({ baseState with font := Font.Font5x11, line := LineMode.OneLine }).setLineMode
        LineMode.TwoLine = none ∧
    baseState.line = LineMode.TwoLine ∧
    ({ baseState with line := LineMode.OneLine }).setFont Font.Font5x11 = none := by
  refine ⟨by decide, by decide, by decide, by decide⟩

/-- C3: round-trip failure of `calculate_pos_by_offset` in two-line
mode. From `(0, 1)` with offset `(-1, 0)` the code lands on `(1, 0)`
(wrapping the column by 2 instead of by the line capacity 40); applying
the negated offset `(1, 0)` then yields `(2, 0)`, not the original
`(0, 1)`, although every intermediate and final position is in bounds. -/
theorem calculate_pos_by_offset_roundtrip_fails :
    baseState.calculatePosByOffset (0, 1) (-1, 0) = some (1, 0) ∧
    baseState.calculatePosByOffset (1, 0) (1, 0) = some (2, 0) ∧
    (1 < 40 ∧ 0 < 2 ∧ 2 < 40) ∧
    ((2, 0) : Nat × Nat) ≠ (0, 1) := by
  refine ⟨by decide, by decide, by decide, by decide⟩

/-- C1: on the current façade (`lcd.rs`), writing one byte at the cursor
auto-steps the software cursor with the controller's exact two-line wrap
in all four claimed cases; the older revision (`impl_lcd_api.rs`)
instead passes `(1, 0)` — not `(0, 1)` — to `internal_set_cursor_pos`
when a left-to-right write occurs at `(39, 0)`. -/
theorem write_u8_to_cur_two_line_wrap (lcd : Lcd) (byte : Nat)
    (hline : lcd.state.line = LineMode.TwoLine)
    (hram : lcd.state.ramType = RAMType.DDRam) :
    (lcd.state.direction = MoveDirection.LeftToRight → lcd.state.cursorPos = (39, 0) →
      (lcd.writeU8ToCur byte).map (fun r => r.1.state.cursorPos) = some (0, 1)) ∧
    (lcd.state.direction = MoveDirection.LeftToRight → lcd.state.cursorPos = (39, 1) →
      (lcd.writeU8ToCur byte).map (fun r => r.1.state.cursorPos) = some (0, 0)) ∧
    (lcd.state.direction = MoveDirection.RightToLeft → lcd.state.cursorPos = (0, 0) →
      (lcd.writeU8ToCur byte).map (fun r => r.1.state.cursorPos) = some (39, 1)) ∧
    (lcd.state.direction = MoveDirection.RightToLeft → lcd.state.cursorPos = (0, 1) →
      (lcd.writeU8ToCur byte).map (fun r => r.1.state.cursorPos) = some (39, 0)) ∧
    legacyWriteU8NextPos LineMode.TwoLine MoveDirection.LeftToRight (39, 0) 40 = (1, 0) ∧
    ((1, 0) : Nat × Nat) ≠ (0, 1) := by
  obtain ⟨⟨dw, li, fo, don, con, cb, dir, sht, cp, dof, rt, bl⟩, poll⟩ := lcd
  simp only at hline hram
  subst hline hram
  refine ⟨?_, ?_, ?_, ?_, by decide, by decide⟩ <;>
    · intro hdir hpos
      simp only at hdir hpos
      subst hdir hpos
      rfl

/-- C1 witness: the wrap theorem applied to a concrete two-line driver
sitting at `(39, 0)` with direction left-to-right. -/
theorem write_u8_to_cur_two_line_wrap_witness :
    ((lcdAt (39, 0) MoveDirection.LeftToRight).writeU8ToCur 0x41).map
        (fun r => r.1.state.cursorPos) = some (0, 1) ∧
    legacyWriteU8NextPos LineMode.TwoLine MoveDirection.LeftToRight (39, 0) 40 = (1, 0) := by
  have h := write_u8_to_cur_two_line_wrap (lcdAt (39, 0) MoveDirection.LeftToRight) 0x41
    (by decide) (by decide)
  exact ⟨h.1 (by decide) (by decide), h.2.2.2.2.1⟩

/-- C5 counterexample: `read_u8_from_cur` does not auto-step the
software cursor. In the default two-line, left-to-right state at
`(0, 0)`, the cursor after a read is still `(0, 0)`, while the
auto-step wrap rule (as performed by `write_u8_to_cur` from the same
state) moves to `(1, 0)`. -/
theorem read_u8_from_cur_does_not_autostep :
    (baseLcd.readU8FromCur 0x41).1.state.cursorPos = (0, 0) ∧
    (baseLcd.writeU8ToCur 0x41).map (fun r => r.1.state.cursorPos) = some (1, 0) ∧
    ((0, 0) : Nat × Nat) ≠ (1, 0) := by
  refine ⟨by decide, by decide, by decide⟩

/-- C7: `write_char_to_cur` sends the character's byte unchanged for
printable ASCII `0x20..=0x7D` and the solid-block glyph `0xFF` for every
other character (non-ASCII, control, or ASCII above `0x7D`): it behaves
exactly like `write_u8_to_cur` on that filtered byte. -/
theorem write_char_to_cur_printable_filter (lcd : Lcd) (c : Char) :
    lcd.writeCharToCur c =
      lcd.writeU8ToCur (if 0x20 ≤ c.toNat ∧ c.toNat ≤ 0x7D then c.toNat else 0xFF) := by
  have hb : writeCharOutByte c.toNat =
      (if 0x20 ≤ c.toNat ∧ c.toNat ≤ 0x7D then c.toNat else 0xFF) := by
    unfold writeCharOutByte
    by_cases h80 : c.toNat < 0x80
    · rw [if_pos h80, Nat.mod_eq_of_lt (by omega)]
    · rw [if_neg h80, if_neg (by omega)]
  unfold Lcd.writeCharToCur
  rw [hb]
  by_cases hr : lcd.state.ramType = RAMType.DDRam
  · rw [if_pos hr]
  · rw [if_neg hr]
    unfold Lcd.writeU8ToCur
    simp [hr]

/-- One display toggle followed by another restores the entire driver
state (the display flag is flipped twice, nothing else is touched). -/
theorem toggleDisplay_involutive (lcd : Lcd) : lcd.toggleDisplay.1.toggleDisplay.1 = lcd := by
  obtain ⟨⟨dw, li, fo, don, con, cb, dir, sht, cp, dof, rt, bl⟩, poll⟩ := lcd
  cases don <;> rfl

/-- A display toggle sends exactly one command, a `DisplayOnOff`. -/
theorem toggleDisplay_trace (lcd : Lcd) :
    ∃ d cu bl, lcd.toggleDisplay.2 = [CommandSet.DisplayOnOff d cu bl] := by
  obtain ⟨⟨dw, li, fo, don, con, cb, dir, sht, cp, dof, rt, bl⟩, poll⟩ := lcd
  cases don <;> exact ⟨_, _, _, rfl⟩

/-- An even number of blink-loop iterations returns the driver to its
starting state. -/
theorem blinkLoop_even_fst (n : Nat) : ∀ lcd : Lcd, (lcd.blinkLoop (2 * n)).1 = lcd := by
  induction n with
  | zero => intro lcd; rfl
  | succ n ih =>
      intro lcd
      have h : 2 * (n + 1) = 2 * n + 1 + 1 := by ring
      rw [h]
      show ((lcd.toggleDisplay.1.toggleDisplay.1).blinkLoop (2 * n)).1 = lcd
      rw [toggleDisplay_involutive]
      exact ih lcd

/-- The blink loop sends exactly one command per iteration. -/
theorem blinkLoop_length (n : Nat) : ∀ lcd : Lcd, (lcd.blinkLoop n).2.length = n := by
  induction n with
  | zero => intro lcd; rfl
  | succ n ih =>
      intro lcd
      show (lcd.toggleDisplay.2 ++ (lcd.toggleDisplay.1.blinkLoop n).2).length = n + 1
      obtain ⟨d, cu, bl, h⟩ := toggleDisplay_trace lcd
      rw [List.length_append, h, ih]
      simp only [List.length_cons, List.length_nil]
      omega

/-- Every command the blink loop sends is a `DisplayOnOff`. -/
theorem blinkLoop_mem (n : Nat) : ∀ (lcd : Lcd), ∀ c ∈ (lcd.blinkLoop n).2,
    ∃ d cu bl, c = CommandSet.DisplayOnOff d cu bl := by
  induction n with
  | zero => intro lcd c hc; cases hc
  | succ n ih =>
      intro lcd c hc
      have hc' : c ∈ lcd.toggleDisplay.2 ++ (lcd.toggleDisplay.1.blinkLoop n).2 := hc
      rcases List.mem_append.mp hc' with h | h
      · obtain ⟨d, cu, bl, ht⟩ := toggleDisplay_trace lcd
        rw [ht] at h
        rcases List.mem_singleton.mp h with rfl
        exact ⟨_, _, _, rfl⟩
      · exact ih _ c h

/-- C10: for every `count > 0`, `full_display_blink` sends exactly
`2 * count` `DisplayOnOff` toggles and returns the driver in exactly the
state it started in (display flag restored, cursor position, direction,
offset, RAM type and all other fields untouched). -/
theorem full_display_blink_roundtrip (lcd : Lcd) (count : Nat) (hc : 0 < count) :
    ∃ tr, lcd.fullDisplayBlink count = some (lcd, tr) ∧
      tr.length = count * 2 ∧
      ∀ c ∈ tr, ∃ d cu bl, c = CommandSet.DisplayOnOff d cu bl := by
  refine ⟨(lcd.blinkLoop (count * 2)).2, ?_, blinkLoop_length _ _, blinkLoop_mem _ _⟩
  unfold Lcd.fullDisplayBlink
  rw [if_neg (by omega)]
  have h1 : (lcd.blinkLoop (count * 2)).1 = lcd := by
    rw [Nat.mul_comm]
    exact blinkLoop_even_fst count lcd
  rw [show lcd.blinkLoop (count * 2) =
    ((lcd.blinkLoop (count * 2)).1, (lcd.blinkLoop (count * 2)).2) from rfl, h1]

/-- C10 witness: one blink cycle on the default driver. -/
theorem full_display_blink_roundtrip_witness :
    ∃ tr, baseLcd.fullDisplayBlink 1 = some (baseLcd, tr) ∧
      tr.length = 1 * 2 ∧
      ∀ c ∈ tr, ∃ d cu bl, c = CommandSet.DisplayOnOff d cu bl :=
  full_display_blink_roundtrip baseLcd 1 (by decide)

/-- C4: the `Shortest` move style always selects a step count of at most
half the line capacity (wrapping when that is shorter), and concretely a
two-line shift from offset 0 to offset 39 performs exactly one
right-to-left `CursorOrDisplayShift`, not 39 left-to-right steps. -/
theorem shift_display_shortest_bound (lcd : Lcd) (targetPos : Nat)
    (hb : lcd.state.displayOffset < lcd.state.getLineCapacity)
    (ht : targetPos < lcd.state.getLineCapacity)
    (_hne : lcd.state.displayOffset ≠ targetPos) :
    (computeDistanceDirection lcd.state.getLineCapacity lcd.state.displayOffset targetPos
        MoveStyle.Shortest).1 ≤ lcd.state.getLineCapacity / 2 ∧
    computeDistanceDirection 40 0 39 MoveStyle.Shortest = (1, MoveDirection.RightToLeft) ∧
    baseLcd.shiftDisplayToPos 39 MoveStyle.Shortest State.Off =
      some ({ baseLcd with state := { baseState with displayOffset := 39 } },
        [CommandSet.DisplayOnOff State.Off State.On State.On,
         CommandSet.CursorOrDisplayShift ShiftType.CursorAndDisplay MoveDirection.RightToLeft,
         CommandSet.DisplayOnOff State.On State.On State.On]) := by
  refine ⟨?_, by decide, by decide⟩
  unfold computeDistanceDirection
  split_ifs <;> dsimp only <;> omega

/-- C4 witness: the shortest-path bound and the concrete one-step wrap
instantiated on the default two-line driver (capacity 40, offset 0,
target 39). -/
theorem shift_display_shortest_bound_witness :
    (computeDistanceDirection baseLcd.state.getLineCapacity baseLcd.state.displayOffset 39
        MoveStyle.Shortest).1 ≤ baseLcd.state.getLineCapacity / 2 ∧
    computeDistanceDirection 40 0 39 MoveStyle.Shortest = (1, MoveDirection.RightToLeft) := by
  have h := shift_display_shortest_bound baseLcd 39 (by decide) (by decide) (by decide)
  exact ⟨h.1, h.2.1⟩

/-- C8: writing a CGRAM graph while the configured direction is
right-to-left leaves the direction equal to right-to-left after the call
(it is flipped to left-to-right only around the burst), and the 8 rows
are sent to CGRAM top-to-bottom exactly in input order: the full command
trace is the temporary `EntryModeSet(LeftToRight)`, `SetCGRAM(index<<3)`,
the 8 `WriteDataToRAM`s in order, and the restoring
`EntryModeSet(RightToLeft)`. -/
theorem write_graph_to_cgram_restores_direction (lcd : Lcd) (index : Nat)
    (graphData : List Nat) (hidx : index < 8) (_hlen : graphData.length = 8)
    (hall : graphData.all (fun line => line < 2 ^ 5) = true)
    (hdir : lcd.state.direction = MoveDirection.RightToLeft) :
    lcd.writeGraphToCgram index graphData =
      some ({ lcd with state := lcd.state.setRamType RAMType.CGRam },
        CommandSet.EntryModeSet MoveDirection.LeftToRight lcd.state.shiftType ::
          CommandSet.SetCGRAM (index <<< 3) ::
          (graphData.map CommandSet.WriteDataToRAM ++
            [CommandSet.EntryModeSet MoveDirection.RightToLeft lcd.state.shiftType])) ∧
    ({ lcd with state := lcd.state.setRamType RAMType.CGRam } : Lcd).state.direction =
      MoveDirection.RightToLeft := by
  have h64 : index <<< 3 < 64 := by
    rw [Nat.shiftLeft_eq]
    omega
  have hall' : ∀ x ∈ graphData, x < 32 := by simpa using hall
  obtain ⟨⟨dw, li, fo, don, con, cb, dir, sht, cp, dof, rt, bl⟩, poll⟩ := lcd
  simp only at hdir
  subst hdir
  refine ⟨?_, rfl⟩
  simp [Lcd.writeGraphToCgram, hidx, hall', h64, Lcd.setDirection, Lcd.setCgramAddr,
    LcdState.setRamType]
  exact hall'

/-- C8 witness: a concrete graph write at index 2 with a right-to-left
driver. -/
theorem write_graph_to_cgram_restores_direction_witness :
    ((lcdAt (0, 0) MoveDirection.RightToLeft).writeGraphToCgram 2
        [1, 2, 3, 4, 5, 6, 7, 31]).map (fun r => r.1.state.direction) =
      some MoveDirection.RightToLeft := by
  have h := write_graph_to_cgram_restores_direction
    (lcdAt (0, 0) MoveDirection.RightToLeft) 2 [1, 2, 3, 4, 5, 6, 7, 31]
    (by decide) (by decide) (by decide) (by decide)
  rw [h.1]
  exact congrArg some h.2

/-- A single `flap_start_byte` underflow (`b < m`) panics the whole
sequential scan. -/
theorem seqFlapStarts_none_of_mem (m : Nat) :
    ∀ bytes : List Nat, (∃ b ∈ bytes, b < m) → seqFlapStarts (some m) bytes = none := by
  intro bytes
  induction bytes with
  | nil =>
      rintro ⟨b, hb, _⟩
      cases hb
  | cons x rest ih =>
      rintro ⟨b, hb, hlt⟩
      rcases List.mem_cons.mp hb with rfl | hmem
      · have hx : flapStartByteSeq (some m) b = none := by
          simp only [flapStartByteSeq, checkedSubU8]
          rw [if_neg (by omega)]
          rfl
        simp [seqFlapStarts, hx]
      · have hrest := ih ⟨b, hmem, hlt⟩
        cases hx : flapStartByteSeq (some m) x with
        | none => simp [seqFlapStarts, hx]
        | some s => simp [seqFlapStarts, hx, hrest]

/-- When no character byte is below the flip count, every sequential
`flap_start_byte` computation succeeds. -/
theorem seqFlapStarts_isSome (m : Nat) :
    ∀ bytes : List Nat, (∀ b ∈ bytes, m ≤ b) →
      (seqFlapStarts (some m) bytes).isSome = true := by
  intro bytes
  induction bytes with
  | nil => intro _; rfl
  | cons x rest ih =>
      intro h
      have hx : m ≤ x := h x (List.mem_cons_self x rest)
      have hxs := ih (fun b hb => h b (List.mem_cons_of_mem x hb))
      obtain ⟨l, hl⟩ := Option.isSome_iff_exists.mp hxs
      have hfx : flapStartByteSeq (some m) x =
          some (if x - m < 0x20 then 0x20 else x - m) := by
        simp only [flapStartByteSeq, checkedSubU8]
        rw [if_pos hx]
        rfl
      simp [seqFlapStarts, hfx, hl]

/-- C9: in `split_flap_write` the flap start byte is the `u8`
subtraction `byte - max_flip_cnt` computed before the clamp-to-`0x20`
comparison, so it is total exactly when `max_flip_cnt ≤ byte`: a
sequential scan over a string containing a byte below `max_flip_cnt`
panics (halts) instead of clamping, and the simultaneous scan panics
when the maximum byte is below `max_flip_cnt`. -/
theorem split_flap_start_byte_underflow (m : Nat) (bytes : List Nat) :
    (∀ b, flapStartByteSeq (some m) b = none ↔ b < m) ∧
    ((∃ b ∈ bytes, b < m) →
      seqFlapStarts (some m) bytes = none ∧
      splitFlapStartBytes bytes FlipStyle.Sequential (some m) = none) ∧
    ((∀ b ∈ bytes, m ≤ b) → (seqFlapStarts (some m) bytes).isSome = true) ∧
    (∀ maxB, bytes.max? = some maxB → maxB < m →
      flapStartByteSim (some m) bytes = none ∧
      splitFlapStartBytes bytes FlipStyle.Simultaneous (some m) = none) := by
  refine ⟨?_, ?_, seqFlapStarts_isSome m bytes, ?_⟩
  · intro b
    simp only [flapStartByteSeq, checkedSubU8]
    split_ifs with h
    · simp
      omega
    · simp
      omega
  · intro hex
    have hseq := seqFlapStarts_none_of_mem m bytes hex
    refine ⟨hseq, ?_⟩
    unfold splitFlapStartBytes
    split_ifs with hp
    · exact hseq
    · rfl
  · intro maxB hmax hlt
    have hsim : flapStartByteSim (some m) bytes = none := by
      cases bytes with
      | nil => simp [List.max?] at hmax
      | cons x rest =>
          have hmin : (x :: rest).min? = some (rest.foldl min x) := rfl
          have h1 : ¬ maxB - rest.foldl min x > m := by omega
          have h2 : ¬ m ≤ maxB := by omega
          simp [flapStartByteSim, hmin, hmax, checkedSubU8, h1, h2]
    refine ⟨hsim, ?_⟩
    unfold splitFlapStartBytes
    split_ifs with hp
    · simp [hsim]
    · rfl

/-- C9 witness: with `max_flip_cnt = 0x30` and input bytes
`[0x41, 0x22]` (both printable), the sequential scan underflows at
`0x22` and panics; with `max_flip_cnt = 0x50` and input `[0x41, 0x42]`
the simultaneous scan underflows at the maximum byte `0x42`. -/
theorem split_flap_start_byte_underflow_witness :
    flapStartByteSeq (some 0x30) 0x22 = none ∧
    seqFlapStarts (some 0x30) [0x41, 0x22] = none ∧
    splitFlapStartBytes [0x41, 0x22] FlipStyle.Sequential (some 0x30) = none ∧
    flapStartByteSim (some 0x50) [0x41, 0x42] = none ∧
    splitFlapStartBytes [0x41, 0x42] FlipStyle.Simultaneous (some 0x50) = none := by
  have h1 := split_flap_start_byte_underflow 0x30 [0x41, 0x22]
  have h2 := split_flap_start_byte_underflow 0x50 [0x41, 0x42]
  have e1 := h1.2.1 ⟨0x22, by decide, by decide⟩
  have e2 := h2.2.2.2 0x42 (by decide) (by decide)
  exact ⟨(h1.1 0x22).mpr (by decide), e1.1, e1.2, e2.1, e2.2⟩

/-- A successful façade `set_cursor_pos`: when the state-level bounds
check passes, the driver switches to DDRAM, stores the position, and
sends exactly `SetDDRAM(y * 0x40 + x)`. -/
theorem lcd_setCursorPos_eq (lcd : Lcd) (pos : Nat × Nat)
    (h : (lcd.state.setCursorPos pos).isSome = true) :
    lcd.setCursorPos pos =
      some ({ lcd with state :=
          { lcd.state with ramType := RAMType.DDRam, cursorPos := pos } },
        [CommandSet.SetDDRAM (pos.2 * 0x40 + pos.1)]) := by
  obtain ⟨⟨dw, li, fo, don, con, cb, dir, sht, cp, dof, rt, bl⟩, poll⟩ := lcd
  cases li
  case OneLine =>
    simp only [LcdState.setCursorPos, LcdState.getLineCapacity] at h
    split_ifs at h with hc
    · have hdd : pos.2 * 64 + pos.1 < 128 := by omega
      simp [Lcd.setCursorPos, LcdState.setRamType, LcdState.setCursorPos,
        LcdState.getLineCapacity, commandFromCommandSet, Command.new, hc.1, hc.2, hdd]
    · simp at h
  case TwoLine =>
    simp only [LcdState.setCursorPos, LcdState.getLineCapacity] at h
    split_ifs at h with hc
    · have hdd : pos.2 * 64 + pos.1 < 128 := by omega
      simp [Lcd.setCursorPos, LcdState.setRamType, LcdState.setCursorPos,
        LcdState.getLineCapacity, commandFromCommandSet, Command.new, hc.1, hc.2, hdd]
    · simp at h

/-- C5 (amended): `read_u8_from_cur` sends `ReadDataFromRAM` and leaves
the whole software state — cursor position included — unchanged (no
auto-step happens after a read); the positional read
`read_byte_from_pos` instead restores the saved cursor explicitly, so
its net cursor effect is also none. -/
theorem read_u8_from_cur_leaves_state (lcd : Lcd) (pos : Nat × Nat) (resp : Nat)
    (hram : lcd.state.ramType = RAMType.DDRam)
    (hpos : (lcd.state.setCursorPos pos).isSome = true)
    (hcur : (lcd.state.setCursorPos lcd.state.cursorPos).isSome = true) :
    (lcd.readU8FromCur resp).1 = lcd ∧
    (lcd.readU8FromCur resp).2.1 = [CommandSet.ReadDataFromRAM] ∧
    (lcd.readByteFromPos pos resp).map (fun r => (r.1.state.cursorPos, r.2.2)) =
      some (lcd.state.cursorPos, resp) := by
  refine ⟨rfl, rfl, ?_⟩
  obtain ⟨⟨dw, li, fo, don, con, cb, dir, sht, cp, dof, rt, bl⟩, poll⟩ := lcd
  obtain ⟨px, py⟩ := pos
  obtain ⟨cx, cy⟩ := cp
  simp only at hram hpos hcur ⊢
  subst hram
  cases li
  case OneLine =>
    simp only [LcdState.setCursorPos, LcdState.getLineCapacity] at hpos hcur
    split_ifs at hpos with h1
    case neg => simp at hpos
    split_ifs at hcur with h2
    case neg => simp at hcur
    obtain ⟨hp1, hp2⟩ := h1
    obtain ⟨hc1, hc2⟩ := h2
    have hp0 : py = 0 := by omega
    have hc0 : cy = 0 := by omega
    subst hp0 hc0
    have hpx : px < 128 := by omega
    have hcx : cx < 128 := by omega
    simp [Lcd.readByteFromPos, Lcd.setCursorPos, LcdState.getCursorPos, LcdState.setRamType,
      LcdState.setCursorPos, LcdState.getLineCapacity, Lcd.readU8FromCur,
      commandFromCommandSet, Command.new, hp1, hc1, hpx, hcx]
  case TwoLine =>
    simp only [LcdState.setCursorPos, LcdState.getLineCapacity] at hpos hcur
    split_ifs at hpos with h1
    case neg => simp at hpos
    split_ifs at hcur with h2
    case neg => simp at hcur
    obtain ⟨hp1, hp2⟩ := h1
    obtain ⟨hc1, hc2⟩ := h2
    have hpx : py * 64 + px < 128 := by omega
    have hcx : cy * 64 + cx < 128 := by omega
    simp [Lcd.readByteFromPos, Lcd.setCursorPos, LcdState.getCursorPos, LcdState.setRamType,
      LcdState.setCursorPos, LcdState.getLineCapacity, Lcd.readU8FromCur,
      commandFromCommandSet, Command.new, hp1, hp2, hc1, hc2, hpx, hcx]

/-- C5 (amended) witness: reading at `(10, 0)` from a two-line driver
whose cursor sits at `(5, 1)` returns the response byte and leaves the
cursor at `(5, 1)`. -/
theorem read_u8_from_cur_leaves_state_witness :
    ((lcdAt (5, 1) MoveDirection.LeftToRight).readByteFromPos (10, 0) 0x4D).map
        (fun r => (r.1.state.cursorPos, r.2.2)) = some ((5, 1), 0x4D) := by
  exact (read_u8_from_cur_leaves_state (lcdAt (5, 1) MoveDirection.LeftToRight) (10, 0) 0x4D
    (by decide) (by decide) (by decide)).2.2

end Lcd1602
